import Mathlib

/-!
Shallow embedding of `relate_cartesian_segments` from
`include/boost/geometry/strategies/cartesian/cart_intersect.hpp`.

Original-precision coordinates are embedded as exact rationals (`Rat`),
rescaled (robust) coordinates as integers (`Int`).  The Result Policy is
embedded initially: the algorithm's return value records which policy
function was invoked and with which evidence.
-/

/-- A rescaled (robust) point: integer coordinates, used for all
orientation and collinearity decisions. -/
structure RPoint where
  x : Int
  y : Int
  deriving DecidableEq

/-- An original-precision point, embedded with exact rational coordinates. -/
structure OPoint where
  x : Rat
  y : Rat
  deriving DecidableEq

/-- A segment of original-precision points: `s` is endpoint 0, `t` endpoint 1. -/
structure Segment where
  s : OPoint
  t : OPoint
  deriving DecidableEq

/-- `geometry::detail::determinant`: the 2x2 determinant `ux * vy - uy * vx`. -/
def determinant {α : Type} [Mul α] [Sub α] (ux uy vx vy : α) : α :=
  ux * vy - uy * vx

/-- `cramers_rule` from the source: returns the pair `(d, da)` with
`d = det(dx_a, dy_a, dx_b, dy_b)` and `da = det(dx_b, dy_b, wx, wy)`. -/
def cramers_rule {α : Type} [Mul α] [Sub α] (dx_a dy_a dx_b dy_b wx wy : α) : α × α :=
  (determinant dx_a dy_a dx_b dy_b, determinant dx_b dy_b wx wy)

/-- Modelled from the spec: the Orientation Predicate
(`side::side_by_triangle`, not under `src/`): the sign of the cross
product `(q - p) x (r - p)`; `1` = left, `-1` = right, `0` = on the line. -/
def side_by_triangle (p q r : RPoint) : Int :=
  Int.sign (determinant (q.x - p.x) (q.y - p.y) (r.x - p.x) (r.y - p.y))

/-- The four orientation signs (Side Evidence): `sa1`, `sa2` are the sides of
segment a's endpoints relative to segment b; `sb1`, `sb2` those of b's
endpoints relative to a. -/
structure side_info where
  sa1 : Int
  sa2 : Int
  sb1 : Int
  sb2 : Int
  deriving DecidableEq

/-- Modelled from the spec: `side_info::same` (not under `src/`) — both
endpoints lie strictly on the same side of the other segment. -/
abbrev sameSide (s t : Int) : Prop := (0 < s ∧ 0 < t) ∨ (s < 0 ∧ t < 0)

/-- Modelled from the spec: `side_info::collinear` (not under `src/`) —
collinearity holds iff all four orientation signs reduce to `collinear`. -/
abbrev side_info.collinear (si : side_info) : Prop :=
  si.sa1 = 0 ∧ si.sa2 = 0 ∧ si.sb1 = 0 ∧ si.sb2 = 0

/-- Modelled from the spec: the Position Ratio (`segment_ratio`, not under
`src/`): a rational value numerator/denominator, `0` = segment start,
`1` = segment end, supporting exact classification before/on/after. -/
structure segment_ratio where
  num : Int
  den : Int
  deriving DecidableEq

/-- Modelled from the spec: before-start — the exact rational value is `< 0`.
The comparison is division-free, normalizing the denominator sign. -/
abbrev segment_ratio.left (r : segment_ratio) : Prop :=
  (0 ≤ r.den ∧ r.num < 0) ∨ (r.den < 0 ∧ 0 < r.num)

/-- Modelled from the spec: after-end — the exact rational value is `> 1`.
The comparison is division-free, normalizing the denominator sign. -/
abbrev segment_ratio.right (r : segment_ratio) : Prop :=
  (0 ≤ r.den ∧ r.den < r.num) ∨ (r.den < 0 ∧ r.num < r.den)

/-- The exact rational value of a Position Ratio (meaningful when the
denominator is nonzero). -/
def segment_ratio.val (r : segment_ratio) : Rat :=
  (r.num : Rat) / (r.den : Rat)

/-- `segment_intersection_info`: original-precision deltas, the clamped
crossing ratio `r`, and the two robust Position Ratios. -/
structure segment_intersection_info where
  dx_a : Rat
  dy_a : Rat
  dx_b : Rat
  dy_b : Rat
  r : Rat
  robust_ra : segment_ratio
  robust_rb : segment_ratio
  deriving DecidableEq

/-- The Result Policy embedded initially: the constructor records which of
the four policy outcomes was invoked, with its evidence. -/
inductive RelateResult where
  | disjoint : RelateResult
  | degenerate : Segment → Bool → RelateResult
  | segments_crosses : side_info → segment_intersection_info → Segment → Segment → RelateResult
  | segments_collinear : Segment → Segment → segment_ratio → segment_ratio →
      segment_ratio → segment_ratio → RelateResult
  deriving DecidableEq

/-- The topological classification of an outcome. -/
inductive RelKind where
  | disjoint : RelKind
  | degenerate : RelKind
  | crossing : RelKind
  | collinear : RelKind
  deriving DecidableEq

/-- Classification of a result, forgetting the evidence. -/
def kindOf : RelateResult → RelKind
  | RelateResult.disjoint => RelKind.disjoint
  | RelateResult.degenerate _ _ => RelKind.degenerate
  | RelateResult.segments_crosses _ _ _ _ => RelKind.crossing
  | RelateResult.segments_collinear _ _ _ _ _ _ => RelKind.collinear

/-- `verify_r` from the source: clamp `r` to `[0,1]` when rounding pushed it
outside, any magnitude of overshoot clamping identically. -/
def verify_r (r : Rat) : Rat :=
  if r < 0 ∨ 1 < r then
    if 1 < r then 1 else if r < 0 then 0 else r
  else r

/-- `relate_collinear` (scalar overload): the four Position Ratios from the
projections of the four endpoints on the chosen axis, and the
left/right disjointness test. -/
def relate_collinear (a b : Segment) (oa_1 oa_2 ob_1 ob_2 : Int) : RelateResult :=
  let length_a := oa_2 - oa_1
  let length_b := ob_2 - ob_1
  let ra_from : segment_ratio := ⟨oa_1 - ob_1, length_b⟩
  let ra_to : segment_ratio := ⟨oa_2 - ob_1, length_b⟩
  let rb_from : segment_ratio := ⟨ob_1 - oa_1, length_a⟩
  let rb_to : segment_ratio := ⟨ob_2 - oa_1, length_a⟩
  if (ra_from.left ∧ ra_to.left) ∨ (ra_from.right ∧ ra_to.right) then
    RelateResult.disjoint
  else
    RelateResult.segments_collinear a b ra_from ra_to rb_from rb_to

/-- The collinear branch of `apply`: choose the projection axis with the
larger total span (`math::abs` sums of the robust deltas; `natAbs` sums
compare exactly as the integer absolute values do) and dispatch to
`relate_collinear` on that axis. -/
def relate_collinear_dispatch (a b : Segment) (ra1 ra2 rb1 rb2 : RPoint) : RelateResult :=
  if (ra2.y - ra1.y).natAbs + (rb2.y - rb1.y).natAbs ≤
      (ra2.x - ra1.x).natAbs + (rb2.x - rb1.x).natAbs then
    relate_collinear a b ra1.x ra2.x rb1.x rb2.x
  else
    relate_collinear a b ra1.y ra2.y rb1.y rb2.y

/-- The Side Evidence as `apply` computes it: each segment's endpoints
tested against the other segment, in rescaled coordinates. -/
def computeSides (ra1 ra2 rb1 rb2 : RPoint) : side_info :=
  ⟨side_by_triangle rb1 rb2 ra1, side_by_triangle rb1 rb2 ra2,
   side_by_triangle ra1 ra2 rb1, side_by_triangle ra1 ra2 rb2⟩

/-- `robust_da0`: the main determinant of the rescaled deltas (the first
component of the robust `cramers_rule` call). -/
def robust_da0 (ra1 ra2 rb1 rb2 : RPoint) : Int :=
  determinant (ra2.x - ra1.x) (ra2.y - ra1.y) (rb2.x - rb1.x) (rb2.y - rb1.y)

/-- The `segment_intersection_info` assembled on the crossing path:
original-precision deltas and determinants by `cramers_rule`, the ratio
`r = da / d` guarded by `d != 0` and clamped by `verify_r`, and the two
robust Position Ratios. -/
def sinfoOf (a b : Segment) (ra1 ra2 rb1 rb2 : RPoint) : segment_intersection_info :=
  let dx_a := a.t.x - a.s.x
  let dx_b := b.t.x - b.s.x
  let dy_a := a.t.y - a.s.y
  let dy_b := b.t.y - b.s.y
  let dda := cramers_rule dx_a dy_a dx_b dy_b (a.s.x - b.s.x) (a.s.y - b.s.y)
  let rda := cramers_rule (ra2.x - ra1.x) (ra2.y - ra1.y) (rb2.x - rb1.x) (rb2.y - rb1.y)
      (ra1.x - rb1.x) (ra1.y - rb1.y)
  let rdb := cramers_rule (rb2.x - rb1.x) (rb2.y - rb1.y) (ra2.x - ra1.x) (ra2.y - ra1.y)
      (rb1.x - ra1.x) (rb1.y - ra1.y)
  ⟨dx_a, dy_a, dx_b, dy_b,
   verify_r (if dda.1 = 0 then 0 else dda.2 / dda.1),
   ⟨rda.2, rda.1⟩, ⟨rdb.2, rdb.1⟩⟩

/-- The part of `apply` that follows the Side Evidence computation
(source lines 138-282), with the Side Evidence as an explicit input. -/
def relateSided (a b : Segment) (ra1 ra2 rb1 rb2 : RPoint) (si : side_info) : RelateResult :=
  if sameSide si.sa1 si.sa2 ∨ sameSide si.sb1 si.sb2 then
    RelateResult.disjoint
  else if ra1 = ra2 then
    RelateResult.degenerate a true
  else if rb1 = rb2 then
    RelateResult.degenerate b false
  else if si.collinear then
    relate_collinear_dispatch a b ra1 ra2 rb1 rb2
  else if robust_da0 ra1 ra2 rb1 rb2 = 0 then
    -- the defensive fallback: the side values are overwritten with 0 and the
    -- collinear branch is re-entered
    relate_collinear_dispatch a b ra1 ra2 rb1 rb2
  else
    RelateResult.segments_crosses si (sinfoOf a b ra1 ra2 rb1 rb2) a b

/-- The main entry routine `apply` (source lines 102-282): the
both-degenerate check, then the Side Evidence and `relateSided`.
`equals_point_point` on rescaled points is exact coordinate equality. -/
def relateApply (a b : Segment) (ra1 ra2 rb1 rb2 : RPoint) : RelateResult :=
  if ra1 = ra2 ∧ rb1 = rb2 then
    if ra1 = rb2 then RelateResult.degenerate a true else RelateResult.disjoint
  else
    relateSided a b ra1 ra2 rb1 rb2 (computeSides ra1 ra2 rb1 rb2)

/-- The original-precision main determinant `d` of `apply`. -/
def origD (a b : Segment) : Rat :=
  determinant (a.t.x - a.s.x) (a.t.y - a.s.y) (b.t.x - b.s.x) (b.t.y - b.s.y)

/-- The original-precision numerator determinant `da` of `apply`. -/
def origDa (a b : Segment) : Rat :=
  determinant (b.t.x - b.s.x) (b.t.y - b.s.y) (a.s.x - b.s.x) (a.s.y - b.s.y)

/-- The two 1-D spans intersect as closed intervals. -/
def spansIntersect (oa_1 oa_2 ob_1 ob_2 : Int) : Prop :=
  min ob_1 ob_2 ≤ max oa_1 oa_2 ∧ min oa_1 oa_2 ≤ max ob_1 ob_2

/-- The disjointness condition of the collinear branch: both relative
positions of the first segment's endpoints fall strictly before the second
segment's span, or both strictly after. -/
abbrev bothOutside (oa_1 oa_2 ob_1 ob_2 : Int) : Prop :=
  (segment_ratio.left ⟨oa_1 - ob_1, ob_2 - ob_1⟩ ∧ segment_ratio.left ⟨oa_2 - ob_1, ob_2 - ob_1⟩) ∨
  (segment_ratio.right ⟨oa_1 - ob_1, ob_2 - ob_1⟩ ∧ segment_ratio.right ⟨oa_2 - ob_1, ob_2 - ob_1⟩)

lemma relate_collinear_eq (a b : Segment) (oa_1 oa_2 ob_1 ob_2 : Int) :
    relate_collinear a b oa_1 oa_2 ob_1 ob_2 =
      if bothOutside oa_1 oa_2 ob_1 ob_2 then RelateResult.disjoint
      else RelateResult.segments_collinear a b ⟨oa_1 - ob_1, ob_2 - ob_1⟩ ⟨oa_2 - ob_1, ob_2 - ob_1⟩
        ⟨ob_1 - oa_1, oa_2 - oa_1⟩ ⟨ob_2 - oa_1, oa_2 - oa_1⟩ :=
  rfl

lemma side_self_first (p q : RPoint) : side_by_triangle p q p = 0 := by
  simp [side_by_triangle, determinant]

lemma side_self_second (p q : RPoint) : side_by_triangle p q q = 0 := by
  simp only [side_by_triangle, determinant]
  rw [show (q.x - p.x) * (q.y - p.y) - (q.y - p.y) * (q.x - p.x) = 0 by ring]
  rfl

lemma side_degenerate_ref (p r : RPoint) : side_by_triangle p p r = 0 := by
  simp [side_by_triangle, determinant]

lemma side_eq_zero {p q r : RPoint} (h : side_by_triangle p q r = 0) :
    determinant (q.x - p.x) (q.y - p.y) (r.x - p.x) (r.y - p.y) = 0 := by
  simpa [side_by_triangle, Int.sign_eq_zero_iff_zero] using h

lemma not_sameSide_left {t : Int} : ¬ sameSide 0 t := by
  simp [sameSide]

lemma not_sameSide_right {s : Int} : ¬ sameSide s 0 := by
  simp [sameSide]

lemma rpoint_eq_iff (p q : RPoint) : p = q ↔ p.x = q.x ∧ p.y = q.y := by
  cases p
  cases q
  simp [RPoint.mk.injEq]

lemma rpoint_sub_ne {p q : RPoint} (h : p ≠ q) : ¬(q.x - p.x = 0 ∧ q.y - p.y = 0) := by
  rintro ⟨hx, hy⟩
  exact h ((rpoint_eq_iff p q).mpr ⟨by omega, by omega⟩)

/-- All four collinear side values force the rescaled direction vectors to be
parallel: the main robust determinant vanishes. -/
lemma collinear_parallel {ra1 ra2 rb1 rb2 : RPoint}
    (h1 : side_by_triangle ra1 ra2 rb1 = 0) (h2 : side_by_triangle ra1 ra2 rb2 = 0) :
    robust_da0 ra1 ra2 rb1 rb2 = 0 := by
  have d1 := side_eq_zero h1
  have d2 := side_eq_zero h2
  simp only [determinant] at d1 d2
  simp only [robust_da0, determinant]
  linear_combination d2 - d1

lemma det_antisymm (u1 u2 v1 v2 : Int) :
    determinant v1 v2 u1 u2 = -(determinant u1 u2 v1 v2) := by
  simp only [determinant]
  ring

/-- On the axis the collinear branch chooses, both segments have a nonzero
span, provided neither rescaled segment is degenerate and the direction
vectors are parallel. -/
lemma chosen_axis_nonzero {u1 u2 v1 v2 : Int}
    (hu : ¬(u1 = 0 ∧ u2 = 0)) (hv : ¬(v1 = 0 ∧ v2 = 0))
    (hpar : u1 * v2 - u2 * v1 = 0) :
    (u2.natAbs + v2.natAbs ≤ u1.natAbs + v1.natAbs → u1 ≠ 0 ∧ v1 ≠ 0) ∧
    (¬(u2.natAbs + v2.natAbs ≤ u1.natAbs + v1.natAbs) → u2 ≠ 0 ∧ v2 ≠ 0) := by
  have key1 : u1 = 0 → v1 = 0 ∨ u2 = 0 := by
    intro h0
    rcases mul_eq_zero.mp (show u2 * v1 = 0 by linear_combination -hpar + v2 * h0) with h | h
    · exact Or.inr h
    · exact Or.inl h
  have key2 : v1 = 0 → u1 = 0 ∨ v2 = 0 := by
    intro h0
    rcases mul_eq_zero.mp (show u1 * v2 = 0 by linear_combination hpar + u2 * h0) with h | h
    · exact Or.inl h
    · exact Or.inr h
  have key3 : u2 = 0 → v2 = 0 ∨ u1 = 0 := by
    intro h0
    rcases mul_eq_zero.mp (show u1 * v2 = 0 by linear_combination hpar + v1 * h0) with h | h
    · exact Or.inr h
    · exact Or.inl h
  have key4 : v2 = 0 → u2 = 0 ∨ v1 = 0 := by
    intro h0
    rcases mul_eq_zero.mp (show u2 * v1 = 0 by linear_combination -hpar + u1 * h0) with h | h
    · exact Or.inl h
    · exact Or.inr h
  constructor
  · intro hle
    constructor
    · intro h0
      rcases key1 h0 with h | h
      · exact hv ⟨h, by omega⟩
      · exact hu ⟨h0, h⟩
    · intro h0
      rcases key2 h0 with h | h
      · rcases key1 h with h' | h'
        · exact hu ⟨h, by omega⟩
        · exact hu ⟨h, h'⟩
      · exact hv ⟨h0, h⟩
  · intro hgt
    constructor
    · intro h0
      rcases key3 h0 with h | h
      · exact hv ⟨by omega, h⟩
      · exact hu ⟨h, h0⟩
    · intro h0
      rcases key4 h0 with h | h
      · rcases key3 h with h' | h'
        · exact hu ⟨by omega, h⟩
        · exact hu ⟨h', h⟩
      · exact hv ⟨h, h0⟩

/-- The collinear disjointness test holds exactly when the two 1-D spans do
not intersect as closed intervals. -/
lemma bothOutside_iff_not_spansIntersect {oa_1 oa_2 ob_1 ob_2 : Int} :
    bothOutside oa_1 oa_2 ob_1 ob_2 ↔ ¬ spansIntersect oa_1 oa_2 ob_1 ob_2 := by
  simp only [bothOutside, segment_ratio.left, segment_ratio.right, spansIntersect]
  omega

/-- A shared projected endpoint pins one of the first segment's Position
Ratios at 0 or 1, so the collinear disjointness test cannot hold. -/
lemma not_bothOutside_of_pinned {oa_1 oa_2 ob_1 ob_2 : Int}
    (hpin : oa_1 = ob_1 ∨ oa_1 = ob_2 ∨ oa_2 = ob_1 ∨ oa_2 = ob_2) :
    ¬ bothOutside oa_1 oa_2 ob_1 ob_2 := by
  simp only [bothOutside, segment_ratio.left, segment_ratio.right]
  omega

/-- The collinear branch only ever produces `disjoint` or
`segments_collinear`. -/
lemma kind_dispatch (a b : Segment) (ra1 ra2 rb1 rb2 : RPoint) :
    kindOf (relate_collinear_dispatch a b ra1 ra2 rb1 rb2) = RelKind.disjoint ∨
    kindOf (relate_collinear_dispatch a b ra1 ra2 rb1 rb2) = RelKind.collinear := by
  unfold relate_collinear_dispatch
  split <;> rw [relate_collinear_eq] <;> split
  · exact Or.inl rfl
  · exact Or.inr rfl
  · exact Or.inl rfl
  · exact Or.inr rfl

lemma dispatch_ne_crosses (a b : Segment) (ra1 ra2 rb1 rb2 : RPoint)
    (si : side_info) (s : segment_intersection_info) (sa sb : Segment) :
    relate_collinear_dispatch a b ra1 ra2 rb1 rb2 ≠
      RelateResult.segments_crosses si s sa sb := by
  intro h
  rcases kind_dispatch a b ra1 ra2 rb1 rb2 with hk | hk <;> rw [h] at hk <;> cases hk

/-- Inversion: a `segments_crosses` outcome comes only from the final branch
of `apply`, with the Side Evidence, the intersection info, nondegeneracy and
the nonzero robust determinant it implies. -/
lemma relateApply_crosses_inv {a b : Segment} {ra1 ra2 rb1 rb2 : RPoint}
    {si : side_info} {s : segment_intersection_info} {sa sb : Segment}
    (h : relateApply a b ra1 ra2 rb1 rb2 = RelateResult.segments_crosses si s sa sb) :
    si = computeSides ra1 ra2 rb1 rb2 ∧ s = sinfoOf a b ra1 ra2 rb1 rb2 ∧
    sa = a ∧ sb = b ∧ robust_da0 ra1 ra2 rb1 rb2 ≠ 0 ∧ ra1 ≠ ra2 ∧ rb1 ≠ rb2 := by
  unfold relateApply relateSided at h
  split_ifs at h with h1 h2 h3 h4 h5 h6 h7
  all_goals try exact absurd h (dispatch_ne_crosses a b ra1 ra2 rb1 rb2 si s sa sb)
  all_goals cases h
  exact ⟨rfl, rfl, rfl, rfl, h7, h4, h5⟩

lemma sinfoOf_r (a b : Segment) (ra1 ra2 rb1 rb2 : RPoint) :
    (sinfoOf a b ra1 ra2 rb1 rb2).r =
      verify_r (if origD a b = 0 then 0 else origDa a b / origD a b) :=
  rfl

lemma sinfoOf_ra_den (a b : Segment) (ra1 ra2 rb1 rb2 : RPoint) :
    (sinfoOf a b ra1 ra2 rb1 rb2).robust_ra.den = robust_da0 ra1 ra2 rb1 rb2 :=
  rfl

lemma sinfoOf_rb_den (a b : Segment) (ra1 ra2 rb1 rb2 : RPoint) :
    (sinfoOf a b ra1 ra2 rb1 rb2).robust_rb.den = -(robust_da0 ra1 ra2 rb1 rb2) :=
  det_antisymm _ _ _ _

/-- `verify_r` always lands in the unit interval. -/
lemma verify_r_mem (q : Rat) : 0 ≤ verify_r q ∧ verify_r q ≤ 1 := by
  unfold verify_r
  split_ifs with h1 h2 h3
  · constructor <;> norm_num
  · constructor <;> norm_num
  · rcases h1 with h | h
    · exact absurd h h3
    · exact absurd h h2
  · push_neg at h1
    exact ⟨h1.1, h1.2⟩

lemma verify_r_of_gt {q : Rat} (h : 1 < q) : verify_r q = 1 := by
  unfold verify_r
  rw [if_pos (Or.inr h), if_pos h]

lemma verify_r_of_lt {q : Rat} (h : q < 0) : verify_r q = 0 := by
  unfold verify_r
  rw [if_pos (Or.inl h), if_neg (by linarith), if_pos h]

lemma verify_r_of_mem {q : Rat} (h0 : 0 ≤ q) (h1 : q ≤ 1) : verify_r q = q := by
  unfold verify_r
  rw [if_neg]
  push_neg
  exact ⟨h0, h1⟩

/-- The denominators of every Position Ratio handed to the Result Policy
are nonzero. -/
def ratioDenomsNonzero : RelateResult → Prop
  | RelateResult.segments_collinear _ _ rf rt sf st =>
      rf.den ≠ 0 ∧ rt.den ≠ 0 ∧ sf.den ≠ 0 ∧ st.den ≠ 0
  | RelateResult.segments_crosses _ s _ _ =>
      s.robust_ra.den ≠ 0 ∧ s.robust_rb.den ≠ 0
  | _ => True

lemma robust_da0_swap (ra1 ra2 rb1 rb2 : RPoint) :
    robust_da0 rb1 rb2 ra1 ra2 = -(robust_da0 ra1 ra2 rb1 rb2) :=
  det_antisymm _ _ _ _

/-- In the collinear branch with nondegenerate rescaled segments whose
directions are parallel, all Position Ratio denominators are nonzero. -/
lemma dispatch_denoms (a b : Segment) {ra1 ra2 rb1 rb2 : RPoint}
    (hA : ra1 ≠ ra2) (hB : rb1 ≠ rb2) (hpar : robust_da0 ra1 ra2 rb1 rb2 = 0) :
    ratioDenomsNonzero (relate_collinear_dispatch a b ra1 ra2 rb1 rb2) := by
  have hkey := chosen_axis_nonzero (rpoint_sub_ne hA) (rpoint_sub_ne hB) hpar
  unfold relate_collinear_dispatch
  split_ifs with hax
  · obtain ⟨h1, h2⟩ := hkey.1 hax
    rw [relate_collinear_eq]
    split_ifs with hd
    · trivial
    · exact ⟨h2, h2, h1, h1⟩
  · obtain ⟨h1, h2⟩ := hkey.2 hax
    rw [relate_collinear_eq]
    split_ifs with hd
    · trivial
    · exact ⟨h2, h2, h1, h1⟩

-- concrete inputs used by the witnesses (rescaled points mirror the
-- original integer coordinates)
def segH : Segment := ⟨⟨0,0⟩,⟨10,0⟩⟩
def segV : Segment := ⟨⟨5,-5⟩,⟨5,5⟩⟩
def segHup : Segment := ⟨⟨0,1⟩,⟨10,1⟩⟩
def segH2 : Segment := ⟨⟨5,0⟩,⟨15,0⟩⟩
def segPt0 : Segment := ⟨⟨0,0⟩,⟨0,0⟩⟩
def segVR : Segment := ⟨⟨10,0⟩,⟨10,10⟩⟩
def segO1 : Segment := ⟨⟨0,0⟩,⟨1,0⟩⟩
def segO2 : Segment := ⟨⟨0,1⟩,⟨1,1⟩⟩
def segP34 : Segment := ⟨⟨3,4⟩,⟨3,4⟩⟩

/-- C1: every crossing outcome's ratio `r` handed to the Result Policy lies
in `[0,1]`: the raw determinant ratio is clamped to the nearest of 0 or 1
when it falls outside, identically for any magnitude of overshoot, and left
unchanged inside. -/
theorem crossing_ratio_clamped (a b : Segment) (ra1 ra2 rb1 rb2 : RPoint)
    (si : side_info) (s : segment_intersection_info) (sa sb : Segment)
    (h : relateApply a b ra1 ra2 rb1 rb2 = RelateResult.segments_crosses si s sa sb)
    (q : Rat) :
    (0 ≤ s.r ∧ s.r ≤ 1) ∧
    (1 < q → verify_r q = 1) ∧ (q < 0 → verify_r q = 0) ∧
    (0 ≤ q → q ≤ 1 → verify_r q = q) := by
  obtain ⟨-, hs, -, -, -, -, -⟩ := relateApply_crosses_inv h
  subst hs
  refine ⟨?_, fun h1 => verify_r_of_gt h1, fun h1 => verify_r_of_lt h1,
    fun h0 h1 => verify_r_of_mem h0 h1⟩
  rw [sinfoOf_r]
  exact verify_r_mem _

theorem crossing_ratio_clamped_witness :
    (0 ≤ (sinfoOf segH segV ⟨0,0⟩ ⟨10,0⟩ ⟨5,-5⟩ ⟨5,5⟩).r ∧
      (sinfoOf segH segV ⟨0,0⟩ ⟨10,0⟩ ⟨5,-5⟩ ⟨5,5⟩).r ≤ 1) ∧
    verify_r (7/2) = 1 ∧ verify_r (-3) = 0 :=
  ⟨(crossing_ratio_clamped segH segV ⟨0,0⟩ ⟨10,0⟩ ⟨5,-5⟩ ⟨5,5⟩
      (computeSides ⟨0,0⟩ ⟨10,0⟩ ⟨5,-5⟩ ⟨5,5⟩)
      (sinfoOf segH segV ⟨0,0⟩ ⟨10,0⟩ ⟨5,-5⟩ ⟨5,5⟩) segH segV rfl 0).1,
   (crossing_ratio_clamped segH segV ⟨0,0⟩ ⟨10,0⟩ ⟨5,-5⟩ ⟨5,5⟩
      (computeSides ⟨0,0⟩ ⟨10,0⟩ ⟨5,-5⟩ ⟨5,5⟩)
      (sinfoOf segH segV ⟨0,0⟩ ⟨10,0⟩ ⟨5,-5⟩ ⟨5,5⟩) segH segV rfl (7/2)).2.1 (by norm_num),
   (crossing_ratio_clamped segH segV ⟨0,0⟩ ⟨10,0⟩ ⟨5,-5⟩ ⟨5,5⟩
      (computeSides ⟨0,0⟩ ⟨10,0⟩ ⟨5,-5⟩ ⟨5,5⟩)
      (sinfoOf segH segV ⟨0,0⟩ ⟨10,0⟩ ⟨5,-5⟩ ⟨5,5⟩) segH segV rfl (-3)).2.2.1 (by norm_num)⟩

/-- C10: the crossing ratio field is exactly `verify_r` of the guarded
quotient: `da / d` is formed only under the guard `d != 0`; with `d = 0`
(while the rescaled determinant is nonzero) the ratio is assigned 0. -/
theorem crossing_ratio_guarded (a b : Segment) (ra1 ra2 rb1 rb2 : RPoint)
    (si : side_info) (s : segment_intersection_info) (sa sb : Segment)
    (h : relateApply a b ra1 ra2 rb1 rb2 = RelateResult.segments_crosses si s sa sb) :
    s.r = verify_r (if origD a b = 0 then 0 else origDa a b / origD a b) ∧
    (origD a b = 0 → s.r = 0) := by
  obtain ⟨-, hs, -, -, -, -, -⟩ := relateApply_crosses_inv h
  subst hs
  refine ⟨sinfoOf_r a b ra1 ra2 rb1 rb2, fun h0 => ?_⟩
  rw [sinfoOf_r, if_pos h0]
  norm_num [verify_r]

theorem crossing_ratio_guarded_witness :
    (sinfoOf segO1 segO2 ⟨0,0⟩ ⟨2,0⟩ ⟨1,-1⟩ ⟨1,1⟩).r = 0 :=
  (crossing_ratio_guarded segO1 segO2 ⟨0,0⟩ ⟨2,0⟩ ⟨1,-1⟩ ⟨1,1⟩
      (computeSides ⟨0,0⟩ ⟨2,0⟩ ⟨1,-1⟩ ⟨1,1⟩)
      (sinfoOf segO1 segO2 ⟨0,0⟩ ⟨2,0⟩ ⟨1,-1⟩ ⟨1,1⟩) segO1 segO2 rfl).2
    (by norm_num [origD, determinant, segO1, segO2])

/-- C3: a zero rescaled main determinant while the side tests deny
collinearity re-enters the collinear branch: the outcome equals the
collinear branch's, which is always `disjoint` or `segments_collinear`,
never an error and never an undefined ratio. -/
theorem zero_robust_det_reenters_collinear (a b : Segment) (ra1 ra2 rb1 rb2 : RPoint)
    (si : side_info)
    (hrej : ¬(sameSide si.sa1 si.sa2 ∨ sameSide si.sb1 si.sb2))
    (hA : ra1 ≠ ra2) (hB : rb1 ≠ rb2) (hncol : ¬ si.collinear)
    (hd0 : robust_da0 ra1 ra2 rb1 rb2 = 0) :
    relateSided a b ra1 ra2 rb1 rb2 si = relate_collinear_dispatch a b ra1 ra2 rb1 rb2 ∧
    (kindOf (relateSided a b ra1 ra2 rb1 rb2 si) = RelKind.disjoint ∨
     kindOf (relateSided a b ra1 ra2 rb1 rb2 si) = RelKind.collinear) := by
  have he : relateSided a b ra1 ra2 rb1 rb2 si =
      relate_collinear_dispatch a b ra1 ra2 rb1 rb2 := by
    unfold relateSided
    rw [if_neg hrej, if_neg hA, if_neg hB, if_neg hncol, if_pos hd0]
  exact ⟨he, he ▸ kind_dispatch a b ra1 ra2 rb1 rb2⟩

theorem zero_robust_det_reenters_collinear_witness :
    relateSided segH segHup ⟨0,0⟩ ⟨10,0⟩ ⟨0,1⟩ ⟨10,1⟩ ⟨1,-1,1,-1⟩ =
      relate_collinear_dispatch segH segHup ⟨0,0⟩ ⟨10,0⟩ ⟨0,1⟩ ⟨10,1⟩ ∧
    (kindOf (relateSided segH segHup ⟨0,0⟩ ⟨10,0⟩ ⟨0,1⟩ ⟨10,1⟩ ⟨1,-1,1,-1⟩) = RelKind.disjoint ∨
     kindOf (relateSided segH segHup ⟨0,0⟩ ⟨10,0⟩ ⟨0,1⟩ ⟨10,1⟩ ⟨1,-1,1,-1⟩) = RelKind.collinear) :=
  zero_robust_det_reenters_collinear segH segHup ⟨0,0⟩ ⟨10,0⟩ ⟨0,1⟩ ⟨10,1⟩ ⟨1,-1,1,-1⟩
    (by decide) (by decide) (by decide) (by decide) (by decide)

/-- C4: when the Side Evidence places both endpoints of one segment strictly
on the same side of the other, the result is the Result Policy's
`disjoint()` outcome (the early exit, before any delta, determinant or
ratio is formed). -/
theorem same_side_rejects_disjoint (a b : Segment) (ra1 ra2 rb1 rb2 : RPoint)
    (h : sameSide (computeSides ra1 ra2 rb1 rb2).sa1 (computeSides ra1 ra2 rb1 rb2).sa2 ∨
         sameSide (computeSides ra1 ra2 rb1 rb2).sb1 (computeSides ra1 ra2 rb1 rb2).sb2) :
    relateApply a b ra1 ra2 rb1 rb2 = RelateResult.disjoint := by
  have hnpt : ¬(ra1 = ra2 ∧ rb1 = rb2) := by
    rintro ⟨h1, h2⟩
    have e1 : (computeSides ra1 ra2 rb1 rb2).sa1 = 0 := by
      show side_by_triangle rb1 rb2 ra1 = 0
      rw [h2]
      exact side_degenerate_ref rb2 ra1
    have e2 : (computeSides ra1 ra2 rb1 rb2).sb1 = 0 := by
      show side_by_triangle ra1 ra2 rb1 = 0
      rw [h1]
      exact side_degenerate_ref ra2 rb1
    rcases h with hh | hh
    · rw [e1] at hh
      exact not_sameSide_left hh
    · rw [e2] at hh
      exact not_sameSide_left hh
  unfold relateApply relateSided
  rw [if_neg hnpt, if_pos h]

theorem same_side_rejects_disjoint_witness :
    relateApply segH segHup ⟨0,0⟩ ⟨10,0⟩ ⟨0,1⟩ ⟨10,1⟩ = RelateResult.disjoint :=
  same_side_rejects_disjoint segH segHup ⟨0,0⟩ ⟨10,0⟩ ⟨0,1⟩ ⟨10,1⟩ (by decide)

/-- C5: with both rescaled inputs degenerate, the outcome is the degenerate
(equal) outcome when the two points coincide and `disjoint()` when they
differ; nothing else is reachable. -/
theorem both_degenerate_classification (a b : Segment) (ra1 ra2 rb1 rb2 : RPoint)
    (hA : ra1 = ra2) (hB : rb1 = rb2) :
    relateApply a b ra1 ra2 rb1 rb2 =
      if ra1 = rb1 then RelateResult.degenerate a true else RelateResult.disjoint := by
  unfold relateApply
  rw [if_pos ⟨hA, hB⟩, hB]

theorem both_degenerate_classification_witness :
    relateApply segP34 segP34 ⟨3,4⟩ ⟨3,4⟩ ⟨3,4⟩ ⟨3,4⟩ =
      if (⟨3,4⟩ : RPoint) = ⟨3,4⟩ then RelateResult.degenerate segP34 true
      else RelateResult.disjoint :=
  both_degenerate_classification segP34 segP34 ⟨3,4⟩ ⟨3,4⟩ ⟨3,4⟩ ⟨3,4⟩ rfl rfl

/-- C6: with exactly one degenerate input whose point lies on the other
segment's line, the outcome is degenerate, flagged `true` when the first
input is the point and `false` when the second is — never `disjoint`. -/
theorem one_degenerate_classification (a b : Segment) (ra1 ra2 rb1 rb2 : RPoint) :
    (ra1 = ra2 → rb1 ≠ rb2 → side_by_triangle rb1 rb2 ra1 = 0 →
      relateApply a b ra1 ra2 rb1 rb2 = RelateResult.degenerate a true) ∧
    (rb1 = rb2 → ra1 ≠ ra2 → side_by_triangle ra1 ra2 rb1 = 0 →
      relateApply a b ra1 ra2 rb1 rb2 = RelateResult.degenerate b false) := by
  constructor
  · intro hA hB hon
    have hrej : ¬(sameSide (computeSides ra1 ra2 rb1 rb2).sa1 (computeSides ra1 ra2 rb1 rb2).sa2 ∨
        sameSide (computeSides ra1 ra2 rb1 rb2).sb1 (computeSides ra1 ra2 rb1 rb2).sb2) := by
      have e1 : (computeSides ra1 ra2 rb1 rb2).sa1 = 0 := hon
      have e2 : (computeSides ra1 ra2 rb1 rb2).sb1 = 0 := by
        show side_by_triangle ra1 ra2 rb1 = 0
        rw [hA]
        exact side_degenerate_ref ra2 rb1
      rintro (hh | hh)
      · rw [e1] at hh
        exact not_sameSide_left hh
      · rw [e2] at hh
        exact not_sameSide_left hh
    unfold relateApply relateSided
    rw [if_neg (fun hcon => hB hcon.2), if_neg hrej, if_pos hA]
  · intro hB hA hon
    have hrej : ¬(sameSide (computeSides ra1 ra2 rb1 rb2).sa1 (computeSides ra1 ra2 rb1 rb2).sa2 ∨
        sameSide (computeSides ra1 ra2 rb1 rb2).sb1 (computeSides ra1 ra2 rb1 rb2).sb2) := by
      have e1 : (computeSides ra1 ra2 rb1 rb2).sa1 = 0 := by
        show side_by_triangle rb1 rb2 ra1 = 0
        rw [hB]
        exact side_degenerate_ref rb2 ra1
      have e2 : (computeSides ra1 ra2 rb1 rb2).sb1 = 0 := hon
      rintro (hh | hh)
      · rw [e1] at hh
        exact not_sameSide_left hh
      · rw [e2] at hh
        exact not_sameSide_left hh
    unfold relateApply relateSided
    rw [if_neg (fun hcon => hA hcon.1), if_neg hrej, if_neg hA, if_pos hB]

theorem one_degenerate_classification_witness :
    relateApply segPt0 segH ⟨0,0⟩ ⟨0,0⟩ ⟨0,0⟩ ⟨10,0⟩ = RelateResult.degenerate segPt0 true :=
  (one_degenerate_classification segPt0 segH ⟨0,0⟩ ⟨0,0⟩ ⟨0,0⟩ ⟨10,0⟩).1 rfl
    (by decide) (by decide)

/-- C9: every Position Ratio the algorithm hands to the Result Policy has a
nonzero denominator: the chosen-axis spans in the collinear branch and the
rescaled determinants in the crossing branch. -/
theorem ratio_denominators_nonzero (a b : Segment) (ra1 ra2 rb1 rb2 : RPoint) :
    ratioDenomsNonzero (relateApply a b ra1 ra2 rb1 rb2) := by
  unfold relateApply relateSided
  split_ifs with h1 h2 h3 h4 h5 h6 h7
  · trivial
  · trivial
  · trivial
  · trivial
  · trivial
  · exact dispatch_denoms a b h4 h5 (collinear_parallel h6.2.2.1 h6.2.2.2)
  · exact dispatch_denoms a b h4 h5 h7
  · constructor
    · show (sinfoOf a b ra1 ra2 rb1 rb2).robust_ra.den ≠ 0
      rw [sinfoOf_ra_den]
      exact h7
    · show (sinfoOf a b ra1 ra2 rb1 rb2).robust_rb.den ≠ 0
      rw [sinfoOf_rb_den]
      exact neg_ne_zero.mpr h7

/-- C2: in the collinear branch the axis with the larger total span is
chosen, the result is `disjoint` exactly when both of the first segment's
relative positions fall strictly left of the other's span or both strictly
right — equivalently, exactly when the two 1-D spans do not intersect as
closed intervals (a zero-width touch intersects) — and otherwise all four
ratios are handed to `segments_collinear`. -/
theorem collinear_branch_axis_and_disjoint_iff (a b : Segment) (ra1 ra2 rb1 rb2 : RPoint)
    (oa_1 oa_2 ob_1 ob_2 : Int) :
    ((ra2.y - ra1.y).natAbs + (rb2.y - rb1.y).natAbs <
        (ra2.x - ra1.x).natAbs + (rb2.x - rb1.x).natAbs →
      relate_collinear_dispatch a b ra1 ra2 rb1 rb2 =
        relate_collinear a b ra1.x ra2.x rb1.x rb2.x) ∧
    ((ra2.x - ra1.x).natAbs + (rb2.x - rb1.x).natAbs <
        (ra2.y - ra1.y).natAbs + (rb2.y - rb1.y).natAbs →
      relate_collinear_dispatch a b ra1 ra2 rb1 rb2 =
        relate_collinear a b ra1.y ra2.y rb1.y rb2.y) ∧
    (relate_collinear a b oa_1 oa_2 ob_1 ob_2 = RelateResult.disjoint ↔
      bothOutside oa_1 oa_2 ob_1 ob_2) ∧
    (relate_collinear a b oa_1 oa_2 ob_1 ob_2 = RelateResult.disjoint ↔
      ¬ spansIntersect oa_1 oa_2 ob_1 ob_2) ∧
    (¬ bothOutside oa_1 oa_2 ob_1 ob_2 →
      relate_collinear a b oa_1 oa_2 ob_1 ob_2 =
        RelateResult.segments_collinear a b ⟨oa_1 - ob_1, ob_2 - ob_1⟩ ⟨oa_2 - ob_1, ob_2 - ob_1⟩
          ⟨ob_1 - oa_1, oa_2 - oa_1⟩ ⟨ob_2 - oa_1, oa_2 - oa_1⟩) := by
  refine ⟨fun h => ?_, fun h => ?_, ?_, ?_, fun h => ?_⟩
  · unfold relate_collinear_dispatch
    rw [if_pos (Nat.le_of_lt h)]
  · unfold relate_collinear_dispatch
    rw [if_neg (by omega)]
  · rw [relate_collinear_eq]
    split_ifs with hd
    · exact iff_of_true rfl hd
    · exact iff_of_false (fun hcon => by cases hcon) hd
  · rw [relate_collinear_eq]
    split_ifs with hd
    · exact iff_of_true rfl (bothOutside_iff_not_spansIntersect.mp hd)
    · exact iff_of_false (fun hcon => by cases hcon)
        (fun hns => hd (bothOutside_iff_not_spansIntersect.mpr hns))
  · rw [relate_collinear_eq, if_neg h]

theorem collinear_branch_axis_and_disjoint_iff_witness :
    relate_collinear_dispatch segH segH2 ⟨0,0⟩ ⟨10,0⟩ ⟨5,0⟩ ⟨15,0⟩ =
      relate_collinear segH segH2 0 10 5 15 ∧
    (relate_collinear segH segH2 0 10 5 15 = RelateResult.disjoint ↔
      ¬ spansIntersect 0 10 5 15) :=
  ⟨(collinear_branch_axis_and_disjoint_iff segH segH2 ⟨0,0⟩ ⟨10,0⟩ ⟨5,0⟩ ⟨15,0⟩
      0 10 5 15).1 (by decide),
   (collinear_branch_axis_and_disjoint_iff segH segH2 ⟨0,0⟩ ⟨10,0⟩ ⟨5,0⟩ ⟨15,0⟩
      0 10 5 15).2.2.2.1⟩

lemma spansIntersect_symm {oa_1 oa_2 ob_1 ob_2 : Int} :
    spansIntersect oa_1 oa_2 ob_1 ob_2 ↔ spansIntersect ob_1 ob_2 oa_1 oa_2 :=
  And.comm

lemma collinear_on_symm (a b : Segment) {oa_1 oa_2 ob_1 ob_2 : Int} :
    kindOf (relate_collinear a b oa_1 oa_2 ob_1 ob_2) =
    kindOf (relate_collinear b a ob_1 ob_2 oa_1 oa_2) := by
  rw [relate_collinear_eq, relate_collinear_eq]
  by_cases hd : bothOutside oa_1 oa_2 ob_1 ob_2
  · have hd' : bothOutside ob_1 ob_2 oa_1 oa_2 := by
      rw [bothOutside_iff_not_spansIntersect] at hd ⊢
      exact fun hs => hd (spansIntersect_symm.mpr hs)
    rw [if_pos hd, if_pos hd']
  · have hd' : ¬ bothOutside ob_1 ob_2 oa_1 oa_2 := by
      rw [bothOutside_iff_not_spansIntersect] at hd ⊢
      intro hcon
      exact hcon (spansIntersect_symm.mp (not_not.mp hd))
    rw [if_neg hd, if_neg hd']
    rfl

lemma dispatch_symm (a b : Segment) (ra1 ra2 rb1 rb2 : RPoint) :
    kindOf (relate_collinear_dispatch a b ra1 ra2 rb1 rb2) =
    kindOf (relate_collinear_dispatch b a rb1 rb2 ra1 ra2) := by
  unfold relate_collinear_dispatch
  by_cases hax : (ra2.y - ra1.y).natAbs + (rb2.y - rb1.y).natAbs ≤
      (ra2.x - ra1.x).natAbs + (rb2.x - rb1.x).natAbs
  · rw [if_pos hax, if_pos (by omega)]
    exact collinear_on_symm a b
  · rw [if_neg hax, if_neg (by omega)]
    exact collinear_on_symm a b

lemma dispatch_ne_degenerate (a b : Segment) (ra1 ra2 rb1 rb2 : RPoint)
    (s : Segment) (f : Bool) :
    relate_collinear_dispatch a b ra1 ra2 rb1 rb2 ≠ RelateResult.degenerate s f := by
  intro h
  rcases kind_dispatch a b ra1 ra2 rb1 rb2 with hk | hk <;> rw [h] at hk <;> cases hk

lemma relate_collinear_swap_eq {a b : Segment} {oa_1 oa_2 ob_1 ob_2 : Int}
    {w x y z : segment_ratio}
    (h : relate_collinear a b oa_1 oa_2 ob_1 ob_2 = RelateResult.segments_collinear a b w x y z) :
    relate_collinear b a ob_1 ob_2 oa_1 oa_2 = RelateResult.segments_collinear b a y z w x := by
  rw [relate_collinear_eq] at h
  rw [relate_collinear_eq]
  split_ifs at h with hd
  all_goals cases h
  all_goals rw [if_neg (show ¬ bothOutside ob_1 ob_2 oa_1 oa_2 from by
    rw [bothOutside_iff_not_spansIntersect] at hd ⊢
    intro hcon
    exact hcon (spansIntersect_symm.mp (not_not.mp hd)))]

lemma dispatch_swap_eq {a b : Segment} {ra1 ra2 rb1 rb2 : RPoint} {w x y z : segment_ratio}
    (h : relate_collinear_dispatch a b ra1 ra2 rb1 rb2 =
      RelateResult.segments_collinear a b w x y z) :
    relate_collinear_dispatch b a rb1 rb2 ra1 ra2 =
      RelateResult.segments_collinear b a y z w x := by
  unfold relate_collinear_dispatch at h ⊢
  by_cases hax : (ra2.y - ra1.y).natAbs + (rb2.y - rb1.y).natAbs ≤
      (ra2.x - ra1.x).natAbs + (rb2.x - rb1.x).natAbs
  · rw [if_pos hax] at h
    rw [if_pos (show (rb2.y - rb1.y).natAbs + (ra2.y - ra1.y).natAbs ≤
        (rb2.x - rb1.x).natAbs + (ra2.x - ra1.x).natAbs from by omega)]
    exact relate_collinear_swap_eq h
  · rw [if_neg hax] at h
    rw [if_neg (show ¬((rb2.y - rb1.y).natAbs + (ra2.y - ra1.y).natAbs ≤
        (rb2.x - rb1.x).natAbs + (ra2.x - ra1.x).natAbs) from by omega)]
    exact relate_collinear_swap_eq h

lemma relate_symmetric_kind_aux (a b : Segment) (ra1 ra2 rb1 rb2 : RPoint) :
    kindOf (relateApply a b ra1 ra2 rb1 rb2) = kindOf (relateApply b a rb1 rb2 ra1 ra2) := by
  unfold relateApply
  by_cases hpt : ra1 = ra2 ∧ rb1 = rb2
  · rw [if_pos hpt, if_pos (show rb1 = rb2 ∧ ra1 = ra2 from And.intro hpt.2 hpt.1)]
    by_cases he : ra1 = rb2
    · rw [if_pos he, if_pos (show rb1 = ra2 from hpt.2.trans (he.symm.trans hpt.1))]
      rfl
    · rw [if_neg he,
        if_neg (show ¬ rb1 = ra2 from fun hcon => he (hpt.1.trans (hcon.symm.trans hpt.2)))]
  · rw [if_neg hpt,
      if_neg (show ¬(rb1 = rb2 ∧ ra1 = ra2) from fun hcon => hpt (And.intro hcon.2 hcon.1))]
    unfold relateSided
    by_cases hrej : sameSide (computeSides ra1 ra2 rb1 rb2).sa1 (computeSides ra1 ra2 rb1 rb2).sa2 ∨
        sameSide (computeSides ra1 ra2 rb1 rb2).sb1 (computeSides ra1 ra2 rb1 rb2).sb2
    · rw [if_pos hrej,
        if_pos (show sameSide (computeSides rb1 rb2 ra1 ra2).sa1 (computeSides rb1 rb2 ra1 ra2).sa2 ∨
            sameSide (computeSides rb1 rb2 ra1 ra2).sb1 (computeSides rb1 rb2 ra1 ra2).sb2 from
          Or.symm hrej)]
    · rw [if_neg hrej,
        if_neg (show ¬(sameSide (computeSides rb1 rb2 ra1 ra2).sa1 (computeSides rb1 rb2 ra1 ra2).sa2 ∨
            sameSide (computeSides rb1 rb2 ra1 ra2).sb1 (computeSides rb1 rb2 ra1 ra2).sb2) from
          fun hcon => hrej (Or.symm hcon))]
      by_cases hA : ra1 = ra2
      · have hB : ¬ rb1 = rb2 := fun h2 => hpt ⟨hA, h2⟩
        rw [if_pos hA, if_neg hB, if_pos hA]
        rfl
      · rw [if_neg hA]
        by_cases hB : rb1 = rb2
        · rw [if_pos hB, if_pos hB]
          rfl
        · rw [if_neg hB, if_neg hB, if_neg hA]
          by_cases hcol : (computeSides ra1 ra2 rb1 rb2).collinear
          · rw [if_pos hcol,
              if_pos (show (computeSides rb1 rb2 ra1 ra2).collinear from
                ⟨hcol.2.2.1, hcol.2.2.2, hcol.1, hcol.2.1⟩)]
            exact dispatch_symm a b ra1 ra2 rb1 rb2
          · rw [if_neg hcol,
              if_neg (show ¬ (computeSides rb1 rb2 ra1 ra2).collinear from
                fun hcon => hcol ⟨hcon.2.2.1, hcon.2.2.2, hcon.1, hcon.2.1⟩)]
            by_cases hd0 : robust_da0 ra1 ra2 rb1 rb2 = 0
            · rw [if_pos hd0,
                if_pos (show robust_da0 rb1 rb2 ra1 ra2 = 0 from by
                  rw [robust_da0_swap]
                  exact neg_eq_zero.mpr hd0)]
              exact dispatch_symm a b ra1 ra2 rb1 rb2
            · rw [if_neg hd0,
                if_neg (show ¬ robust_da0 rb1 rb2 ra1 ra2 = 0 from fun hcon =>
                  hd0 (by rwa [robust_da0_swap, neg_eq_zero] at hcon))]
              rfl

lemma relate_symmetric_collinear_aux (a b : Segment) (ra1 ra2 rb1 rb2 : RPoint)
    (w x y z : segment_ratio)
    (h : relateApply a b ra1 ra2 rb1 rb2 = RelateResult.segments_collinear a b w x y z) :
    relateApply b a rb1 rb2 ra1 ra2 = RelateResult.segments_collinear b a y z w x := by
  unfold relateApply relateSided at h ⊢
  split_ifs at h with h1 h2 h3 h4 h5 h6 h7
  · rw [if_neg (show ¬(rb1 = rb2 ∧ ra1 = ra2) from fun hcon => h1 (And.intro hcon.2 hcon.1)),
      if_neg (show ¬(sameSide (computeSides rb1 rb2 ra1 ra2).sa1 (computeSides rb1 rb2 ra1 ra2).sa2 ∨
          sameSide (computeSides rb1 rb2 ra1 ra2).sb1 (computeSides rb1 rb2 ra1 ra2).sb2) from
        fun hcon => h3 (Or.symm hcon)),
      if_neg h5, if_neg h4,
      if_pos (show (computeSides rb1 rb2 ra1 ra2).collinear from
        ⟨h6.2.2.1, h6.2.2.2, h6.1, h6.2.1⟩)]
    exact dispatch_swap_eq h
  · rw [if_neg (show ¬(rb1 = rb2 ∧ ra1 = ra2) from fun hcon => h1 (And.intro hcon.2 hcon.1)),
      if_neg (show ¬(sameSide (computeSides rb1 rb2 ra1 ra2).sa1 (computeSides rb1 rb2 ra1 ra2).sa2 ∨
          sameSide (computeSides rb1 rb2 ra1 ra2).sb1 (computeSides rb1 rb2 ra1 ra2).sb2) from
        fun hcon => h3 (Or.symm hcon)),
      if_neg h5, if_neg h4,
      if_neg (show ¬ (computeSides rb1 rb2 ra1 ra2).collinear from
        fun hcon => h6 ⟨hcon.2.2.1, hcon.2.2.2, hcon.1, hcon.2.1⟩),
      if_pos (show robust_da0 rb1 rb2 ra1 ra2 = 0 from by
        rw [robust_da0_swap]
        exact neg_eq_zero.mpr h7)]
    exact dispatch_swap_eq h

lemma relate_symmetric_degenerate_aux (a b : Segment) (ra1 ra2 rb1 rb2 : RPoint)
    (hnpt : ¬(ra1 = ra2 ∧ rb1 = rb2)) (s : Segment) (f : Bool)
    (h : relateApply a b ra1 ra2 rb1 rb2 = RelateResult.degenerate s f) :
    relateApply b a rb1 rb2 ra1 ra2 = RelateResult.degenerate s (!f) := by
  unfold relateApply relateSided at h ⊢
  rw [if_neg hnpt] at h
  rw [if_neg (show ¬(rb1 = rb2 ∧ ra1 = ra2) from fun hcon => hnpt (And.intro hcon.2 hcon.1))]
  split_ifs at h with h3 h4 h5 h6 h7
  all_goals try exact absurd h (dispatch_ne_degenerate a b ra1 ra2 rb1 rb2 s f)
  all_goals cases h
  · -- a is the degenerate input
    have hB : ¬ rb1 = rb2 := fun h2 => hnpt ⟨h4, h2⟩
    rw [if_neg (show ¬(sameSide (computeSides rb1 rb2 ra1 ra2).sa1 (computeSides rb1 rb2 ra1 ra2).sa2 ∨
        sameSide (computeSides rb1 rb2 ra1 ra2).sb1 (computeSides rb1 rb2 ra1 ra2).sb2) from
      fun hcon => h3 (Or.symm hcon)), if_neg hB, if_pos h4]
    rfl
  · -- b is the degenerate input
    rw [if_neg (show ¬(sameSide (computeSides rb1 rb2 ra1 ra2).sa1 (computeSides rb1 rb2 ra1 ra2).sa2 ∨
        sameSide (computeSides rb1 rb2 ra1 ra2).sb1 (computeSides rb1 rb2 ra1 ra2).sb2) from
      fun hcon => h3 (Or.symm hcon)), if_pos h5]
    rfl

/-- C8: `apply(a, b)` and `apply(b, a)` always produce the same topological
classification — disjoint with disjoint, degenerate with degenerate,
crossing with crossing, collinear with collinear — with the evidence roles
swapped consistently: the Side Evidence rows swap, the two robust
Position Ratios swap, a collinear outcome's ratio pairs swap, and a
one-sided degenerate outcome's flag is negated. -/
theorem relate_symmetric_kind (a b : Segment) (ra1 ra2 rb1 rb2 : RPoint) :
    (kindOf (relateApply a b ra1 ra2 rb1 rb2) = kindOf (relateApply b a rb1 rb2 ra1 ra2)) ∧
    (computeSides rb1 rb2 ra1 ra2 =
      ⟨(computeSides ra1 ra2 rb1 rb2).sb1, (computeSides ra1 ra2 rb1 rb2).sb2,
       (computeSides ra1 ra2 rb1 rb2).sa1, (computeSides ra1 ra2 rb1 rb2).sa2⟩) ∧
    ((sinfoOf b a rb1 rb2 ra1 ra2).robust_ra = (sinfoOf a b ra1 ra2 rb1 rb2).robust_rb) ∧
    ((sinfoOf b a rb1 rb2 ra1 ra2).robust_rb = (sinfoOf a b ra1 ra2 rb1 rb2).robust_ra) ∧
    (∀ w x y z : segment_ratio,
      relateApply a b ra1 ra2 rb1 rb2 = RelateResult.segments_collinear a b w x y z →
      relateApply b a rb1 rb2 ra1 ra2 = RelateResult.segments_collinear b a y z w x) ∧
    (¬(ra1 = ra2 ∧ rb1 = rb2) → ∀ s : Segment, ∀ f : Bool,
      relateApply a b ra1 ra2 rb1 rb2 = RelateResult.degenerate s f →
      relateApply b a rb1 rb2 ra1 ra2 = RelateResult.degenerate s (!f)) :=
  ⟨relate_symmetric_kind_aux a b ra1 ra2 rb1 rb2, rfl, rfl, rfl,
   fun w x y z h => relate_symmetric_collinear_aux a b ra1 ra2 rb1 rb2 w x y z h,
   fun hnpt s f h => relate_symmetric_degenerate_aux a b ra1 ra2 rb1 rb2 hnpt s f h⟩

theorem relate_symmetric_kind_witness :
    kindOf (relateApply segPt0 segH ⟨0,0⟩ ⟨0,0⟩ ⟨0,0⟩ ⟨10,0⟩) =
      kindOf (relateApply segH segPt0 ⟨0,0⟩ ⟨10,0⟩ ⟨0,0⟩ ⟨0,0⟩) ∧
    relateApply segH segPt0 ⟨0,0⟩ ⟨10,0⟩ ⟨0,0⟩ ⟨0,0⟩ = RelateResult.degenerate segPt0 false :=
  ⟨(relate_symmetric_kind segPt0 segH ⟨0,0⟩ ⟨0,0⟩ ⟨0,0⟩ ⟨10,0⟩).1,
   (relate_symmetric_kind segPt0 segH ⟨0,0⟩ ⟨0,0⟩ ⟨0,0⟩ ⟨10,0⟩).2.2.2.2.2
     (by decide) segPt0 true rfl⟩

/-- C7 counterexample: two non-degenerate segments sharing exactly one
endpoint (`a2 = b1`, all other endpoint pairs distinct, meeting
perpendicularly so they have no other common point) are classified as a
crossing by `apply`, not as a degenerate touch. -/
theorem shared_endpoint_not_degenerate_cex :
    ((⟨10,0⟩ : RPoint) = ⟨10,0⟩ ∧ (⟨0,0⟩ : RPoint) ≠ ⟨10,0⟩ ∧ (⟨0,0⟩ : RPoint) ≠ ⟨10,10⟩ ∧
      (⟨10,0⟩ : RPoint) ≠ ⟨10,10⟩) ∧
    kindOf (relateApply segH segVR ⟨0,0⟩ ⟨10,0⟩ ⟨10,0⟩ ⟨10,10⟩) = RelKind.crossing ∧
    kindOf (relateApply segH segVR ⟨0,0⟩ ⟨10,0⟩ ⟨10,0⟩ ⟨10,10⟩) ≠ RelKind.degenerate := by
  decide

/-- C7 amended: a pair of non-degenerate segments sharing an endpoint in
rescaled coordinates is classified as a crossing (single intersection
point) or as a collinear overlap (of possibly zero width) — never as
degenerate and never as disjoint. -/
theorem shared_endpoint_crossing_or_collinear (a b : Segment) (ra1 ra2 rb1 rb2 : RPoint)
    (hA : ra1 ≠ ra2) (hB : rb1 ≠ rb2)
    (hsh : ra1 = rb1 ∨ ra1 = rb2 ∨ ra2 = rb1 ∨ ra2 = rb2) :
    kindOf (relateApply a b ra1 ra2 rb1 rb2) = RelKind.crossing ∨
    kindOf (relateApply a b ra1 ra2 rb1 rb2) = RelKind.collinear := by
  have hdisp : kindOf (relate_collinear_dispatch a b ra1 ra2 rb1 rb2) = RelKind.collinear := by
    have hpinx : ra1.x = rb1.x ∨ ra1.x = rb2.x ∨ ra2.x = rb1.x ∨ ra2.x = rb2.x := by
      rcases hsh with h | h | h | h
      · exact Or.inl (by rw [h])
      · exact Or.inr (Or.inl (by rw [h]))
      · exact Or.inr (Or.inr (Or.inl (by rw [h])))
      · exact Or.inr (Or.inr (Or.inr (by rw [h])))
    have hpiny : ra1.y = rb1.y ∨ ra1.y = rb2.y ∨ ra2.y = rb1.y ∨ ra2.y = rb2.y := by
      rcases hsh with h | h | h | h
      · exact Or.inl (by rw [h])
      · exact Or.inr (Or.inl (by rw [h]))
      · exact Or.inr (Or.inr (Or.inl (by rw [h])))
      · exact Or.inr (Or.inr (Or.inr (by rw [h])))
    unfold relate_collinear_dispatch
    split_ifs with hax
    · rw [relate_collinear_eq, if_neg (not_bothOutside_of_pinned hpinx)]
      rfl
    · rw [relate_collinear_eq, if_neg (not_bothOutside_of_pinned hpiny)]
      rfl
  have hrej : ¬(sameSide (computeSides ra1 ra2 rb1 rb2).sa1 (computeSides ra1 ra2 rb1 rb2).sa2 ∨
      sameSide (computeSides ra1 ra2 rb1 rb2).sb1 (computeSides ra1 ra2 rb1 rb2).sb2) := by
    rcases hsh with h | h | h | h
    · have e1 : (computeSides ra1 ra2 rb1 rb2).sa1 = 0 := by
        show side_by_triangle rb1 rb2 ra1 = 0
        rw [h]
        exact side_self_first rb1 rb2
      have e2 : (computeSides ra1 ra2 rb1 rb2).sb1 = 0 := by
        show side_by_triangle ra1 ra2 rb1 = 0
        rw [← h]
        exact side_self_first ra1 ra2
      rintro (hh | hh)
      · rw [e1] at hh
        exact not_sameSide_left hh
      · rw [e2] at hh
        exact not_sameSide_left hh
    · have e1 : (computeSides ra1 ra2 rb1 rb2).sa1 = 0 := by
        show side_by_triangle rb1 rb2 ra1 = 0
        rw [h]
        exact side_self_second rb1 rb2
      have e2 : (computeSides ra1 ra2 rb1 rb2).sb2 = 0 := by
        show side_by_triangle ra1 ra2 rb2 = 0
        rw [← h]
        exact side_self_first ra1 ra2
      rintro (hh | hh)
      · rw [e1] at hh
        exact not_sameSide_left hh
      · rw [e2] at hh
        exact not_sameSide_right hh
    · have e1 : (computeSides ra1 ra2 rb1 rb2).sa2 = 0 := by
        show side_by_triangle rb1 rb2 ra2 = 0
        rw [h]
        exact side_self_first rb1 rb2
      have e2 : (computeSides ra1 ra2 rb1 rb2).sb1 = 0 := by
        show side_by_triangle ra1 ra2 rb1 = 0
        rw [← h]
        exact side_self_second ra1 ra2
      rintro (hh | hh)
      · rw [e1] at hh
        exact not_sameSide_right hh
      · rw [e2] at hh
        exact not_sameSide_left hh
    · have e1 : (computeSides ra1 ra2 rb1 rb2).sa2 = 0 := by
        show side_by_triangle rb1 rb2 ra2 = 0
        rw [h]
        exact side_self_second rb1 rb2
      have e2 : (computeSides ra1 ra2 rb1 rb2).sb2 = 0 := by
        show side_by_triangle ra1 ra2 rb2 = 0
        rw [← h]
        exact side_self_second ra1 ra2
      rintro (hh | hh)
      · rw [e1] at hh
        exact not_sameSide_right hh
      · rw [e2] at hh
        exact not_sameSide_right hh
  unfold relateApply relateSided
  rw [if_neg (fun hcon => hA hcon.1), if_neg hrej, if_neg hA, if_neg hB]
  split_ifs with h6 h7
  · exact Or.inr hdisp
  · exact Or.inr hdisp
  · exact Or.inl rfl

theorem shared_endpoint_crossing_or_collinear_witness :
    kindOf (relateApply segH segVR ⟨0,0⟩ ⟨10,0⟩ ⟨10,0⟩ ⟨10,10⟩) = RelKind.crossing ∨
    kindOf (relateApply segH segVR ⟨0,0⟩ ⟨10,0⟩ ⟨10,0⟩ ⟨10,10⟩) = RelKind.collinear :=
  shared_endpoint_crossing_or_collinear segH segVR ⟨0,0⟩ ⟨10,0⟩ ⟨10,0⟩ ⟨10,10⟩
    (by decide) (by decide) (Or.inr (Or.inr (Or.inl rfl)))
